import Mathlib

/-!
Verification of the esm.sh `esm-compiler` transform core
(`src/packages/esm-compiler/src/resolve_fold.rs` and
`src/packages/esm-compiler/src/swc.rs`): the specifier-rewriting fold,
the pipeline stage gates, and the post-emission dependency pruning.
-/

namespace EsmCompiler

/-- Embedding of `swc_ecma_ast::Str`.  `span` is an abstract source-location
id (the dummy span is `0`), `kind` abstracts `StrKind` (`Default::default()`
is `0`). -/
structure Str where
  value : String
  span : Nat
  hasEscape : Bool
  kind : Nat
deriving DecidableEq, Repr

/-- The dummy span `DUMMY_SP`. -/
def dummySpan : Nat := 0

/-- Embedding of `new_str` in resolve_fold.rs: builds a `Str` with the dummy
span, `has_escape: false` and the default kind. -/
def new_str (str : String) : Str :=
  { value := str, span := dummySpan, hasEscape := false, kind := 0 }

/-- Import specifiers (`ImportSpecifier`): named, default, or namespace
bindings.  The fold never inspects these. -/
inductive ImportSpecifier : Type where
  | named : String → Option String → ImportSpecifier
  | defaultSpec : String → ImportSpecifier
  | namespaceSpec : String → ImportSpecifier
deriving DecidableEq, Repr

/-- Export specifiers (`ExportSpecifier`): `export { a, b as c }` entries and
`export * as ns` namespace entries.  The fold never inspects these. -/
inductive ExportSpecifier : Type where
  | named : String → Option String → ExportSpecifier
  | namespaceSpec : String → ExportSpecifier
  | defaultSpec : String → ExportSpecifier
deriving DecidableEq, Repr

mutual
/-- Embedding of the expression forms `fold_call_expr` can observe: string
literals, other literals, identifiers, `super` (as a callee), call
expressions, an expression wrapping one subexpression (paren, arrow body,
unary, ...), and opaque leaf expressions. -/
inductive Expr : Type where
  | litStr : Str → Expr
  | litOther : Expr
  | ident : String → Expr
  | superE : Expr
  | call : Expr → Args → Expr
  | wrap : Expr → Expr
  | leaf : Expr

/-- Embedding of `Vec<ExprOrSpread>`: each argument carries its spread flag
(`Option<Span>` in swc, here a `Bool`) and its expression. -/
inductive Args : Type where
  | nil : Args
  | cons : Bool → Expr → Args → Args
end

deriving instance DecidableEq for Expr
deriving instance DecidableEq for Args

/-- Embedding of `ImportDecl`: `import React, { useState } from "..."`. -/
structure ImportDecl where
  span : Nat
  specifiers : List ImportSpecifier
  src : Str
  typeOnly : Bool
  asserts : Option Nat
deriving DecidableEq, Repr

/-- Embedding of `NamedExport`: `export { default as React } from "..."`,
`export * as ns from "..."`, or a sourceless `export { a }`. -/
structure NamedExport where
  span : Nat
  specifiers : List ExportSpecifier
  src : Option Str
  typeOnly : Bool
  asserts : Option Nat
deriving DecidableEq, Repr

/-- Embedding of `ExportAll`: `export * from "..."`. -/
structure ExportAll where
  span : Nat
  src : Str
  asserts : Option Nat
deriving DecidableEq, Repr

/-- Module declarations the fold distinguishes; `otherDecl` stands for the
`_` catch-all arm (export-decl, export-default, ...) carrying its
expression children. -/
inductive ModuleDecl : Type where
  | importD : ImportDecl → ModuleDecl
  | exportNamed : NamedExport → ModuleDecl
  | exportAll : ExportAll → ModuleDecl
  | otherDecl : Expr → ModuleDecl
deriving DecidableEq

/-- A module item: a module declaration or a statement (carrying its
expression children). -/
inductive ModuleItem : Type where
  | decl : ModuleDecl → ModuleItem
  | stmt : Expr → ModuleItem
deriving DecidableEq

/-- A dependency descriptor as used by `SWC::transform`
(`resolver.deps`): the resolved specifier and the import kind. -/
structure DependencyDescriptor where
  specifier : String
  isDynamic : Bool
deriving DecidableEq, Repr

/-- The resolver state (`crate::resolver::Resolver`): the external
resolution policy `resolveFn`, the locality flag `specifier_is_remote`,
the Dependency Ledger `deps`, the Star-Export Set `star_exports`, and a
trace `calls` of every `resolve()` invocation (used to state that no
resolve call is attributable to an occurrence). -/
structure Resolver where
  resolveFn : String → Bool → String
  specifierIsRemote : Bool
  deps : List DependencyDescriptor
  starExports : List String
  calls : List (String × Bool)

/-- Modelled from the spec: `Resolver::resolve` lives in `resolver.rs`,
which is not part of the visible source; per the spec it returns the
resolved URL and accumulates the Dependency Ledger as a side effect of
being invoked.  We additionally record the invocation in the `calls`
trace. -/
def Resolver.resolve (st : Resolver) (s : String) (isDynamic : Bool) :
    Resolver × String :=
  let url := st.resolveFn s isDynamic
  ({ st with
      deps := st.deps ++ [{ specifier := url, isDynamic := isDynamic }],
      calls := st.calls ++ [(s, isDynamic)] },
   url)

/-- Embedding of `is_call_expr_by_name`: `Super` callees never match; an
expression callee matches iff it is an identifier with the given symbol. -/
def is_call_expr_by_name (callee : Expr) (name : String) : Bool :=
  match callee with
  | .superE => false
  | .ident id => id == name
  | _ => false

mutual
/-- The default fold recursion on expressions, with the body of
`ResolveFold::fold_call_expr` inlined at the `call` case: when the callee
is the `import` pseudo-identifier and the first argument's expression is a
string literal, resolve it with `is_dynamic = true` and replace the whole
argument list with that single resolved literal, then fold the children
(the fresh argument list is one string literal whose fold is the
identity); any other first argument shape returns the call as-is, without
folding children; other callees just fold children.  Non-call nodes are
rebuilt from folded children. -/
def fold_expr (st : Resolver) (e : Expr) : Resolver × Expr :=
  match e with
  | .call callee args =>
    if is_call_expr_by_name callee "import" then
      match args with
      | .nil => (st, .call callee .nil)
      | .cons sp e1 rest =>
        match e1 with
        | .litStr s =>
          let p := st.resolve s.value true
          let q := fold_expr p.1 callee
          (q.1, .call q.2 (.cons false (.litStr (new_str p.2)) .nil))
        | e2 => (st, .call callee (.cons sp e2 rest))
    else
      let q := fold_expr st callee
      let r := fold_args q.1 args
      (r.1, .call q.2 r.2)
  | .wrap e1 =>
    let p := fold_expr st e1
    (p.1, .wrap p.2)
  | e1 => (st, e1)

/-- Folding an argument list: each argument's expression is folded in
order, spread flags preserved. -/
def fold_args (st : Resolver) (args : Args) : Resolver × Args :=
  match args with
  | .nil => (st, .nil)
  | .cons sp e rest =>
    let p := fold_expr st e
    let q := fold_args p.1 rest
    (q.1, .cons sp p.2 q.2)
end

/-- Embedding of `ResolveFold::fold_call_expr`, as the `call` case of the
fold. -/
def fold_call_expr (st : Resolver) (callee : Expr) (args : Args) :
    Resolver × Expr :=
  fold_expr st (.call callee args)

/-- Embedding of one iteration of `ResolveFold::fold_module_items`: the
match on the module declaration, followed by `fold_children_with` (which
only affects expression children, so it is the identity on the rewritten
import/export declarations and recurses into statements and other
declarations). -/
def fold_module_item (st : Resolver) (item : ModuleItem) :
    Resolver × ModuleItem :=
  match item with
  | .decl (.importD d) =>
    if d.typeOnly then
      (st, .decl (.importD d))
    else
      let p := st.resolve d.src.value false
      (p.1, .decl (.importD { d with src := new_str p.2 }))
  | .decl (.exportNamed e) =>
    match e.src with
    | some src =>
      if e.typeOnly then
        (st, .decl (.exportNamed
          { span := dummySpan, specifiers := e.specifiers,
            src := some src, typeOnly := true, asserts := none }))
      else
        let p := st.resolve src.value false
        (p.1, .decl (.exportNamed
          { span := dummySpan, specifiers := e.specifiers,
            src := some (new_str p.2), typeOnly := false, asserts := none }))
    | none => (st, .decl (.exportNamed e))
  | .decl (.exportAll ea) =>
    let p := st.resolve ea.src.value false
    (p.1, .decl (.exportAll
      { span := dummySpan, src := new_str p.2, asserts := none }))
  | .decl (.otherDecl ex) =>
    let p := fold_expr st ex
    (p.1, .decl (.otherDecl p.2))
  | .stmt ex =>
    let p := fold_expr st ex
    (p.1, .stmt p.2)

/-- Embedding of `ResolveFold::fold_module_items`: fold each item in order,
threading the resolver state. -/
def fold_module_items (st : Resolver) (items : List ModuleItem) :
    Resolver × List ModuleItem :=
  match items with
  | [] => (st, [])
  | item :: rest =>
    let p := fold_module_item st item
    let q := fold_module_items p.1 rest
    (q.1, p.2 :: q.2)

/-- Embedding of `to_str_lit` in swc.rs: wrap a text in double quotes. -/
def to_str_lit (sub_text : String) : String :=
  "\"" ++ sub_text ++ "\""

/-- Rust `str::contains` specialized to string patterns: exact substring
containment, stated over the character lists. -/
def str_contains (code pat : String) : Bool :=
  decide (List.IsInfix pat.toList code.toList)

/-- Embedding of the dependency-pruning loop in `SWC::transform` (lines
181-190 of swc.rs): keep a dependency iff its specifier is in
`star_exports` or the emitted code contains the double-quoted specifier as
a substring. -/
def prune_deps (star : List String) (code : String) :
    List DependencyDescriptor → List DependencyDescriptor
  | [] => []
  | d :: rest =>
    if star.contains d.specifier || str_contains code (to_str_lit d.specifier)
    then d :: prune_deps star code rest
    else prune_deps star code rest

/-- Embedding of `crate::source_type::SourceType` as matched in swc.rs. -/
inductive SourceType : Type where
  | JS | JSX | TS | TSX | Unknown
deriving DecidableEq, Repr

/-- The `EsConfig` flags set by `get_es_config` (the remaining swc flags
keep their `EsConfig::default()` values and never vary here). -/
structure EsConfig where
  classPrivateMethods : Bool
  classPrivateProps : Bool
  classProps : Bool
  dynamicImport : Bool
  exportDefaultFrom : Bool
  exportNamespaceFrom : Bool
  numSep : Bool
  nullishCoalescing : Bool
  optionalChaining : Bool
  topLevelAwait : Bool
  importMeta : Bool
  importAssertions : Bool
  jsx : Bool
deriving DecidableEq, Repr

/-- The `TsConfig` flags set by `get_ts_config` (remaining flags keep their
defaults). -/
structure TsConfig where
  decorators : Bool
  dynamicImport : Bool
  tsx : Bool
deriving DecidableEq, Repr

/-- The parser syntax selected for a module (`swc Syntax`). -/
inductive JsSyntax : Type where
  | es : EsConfig → JsSyntax
  | typescript : TsConfig → JsSyntax
deriving DecidableEq, Repr

/-- Embedding of `get_es_config`. -/
def get_es_config (jsx : Bool) : EsConfig :=
  { classPrivateMethods := true, classPrivateProps := true,
    classProps := true, dynamicImport := true, exportDefaultFrom := true,
    exportNamespaceFrom := true, numSep := true, nullishCoalescing := true,
    optionalChaining := true, topLevelAwait := true, importMeta := true,
    importAssertions := true, jsx := jsx }

/-- Embedding of `get_ts_config`. -/
def get_ts_config (tsx : Bool) : TsConfig :=
  { decorators := true, dynamicImport := true, tsx := tsx }

/-- Embedding of `get_syntax`: the catch-all arm (which covers
`SourceType::Unknown`) selects the TSX-capable TypeScript syntax. -/
def get_syntax (source_type : SourceType) : JsSyntax :=
  match source_type with
  | .JS => .es (get_es_config false)
  | .JSX => .es (get_es_config true)
  | .TS => .typescript (get_ts_config false)
  | .TSX => .typescript (get_ts_config true)
  | .Unknown => .typescript (get_ts_config true)

/-- Embedding of the `is_jsx` computation in `SWC::transform`: true exactly
for `SourceType::JSX` and `SourceType::TSX`. -/
def is_jsx (source_type : SourceType) : Bool :=
  match source_type with
  | .JSX => true
  | .TSX => true
  | _ => false

/-- Gate of `Optional::new(strip::strip_with_config(..), !is_jsx)`: the
plain type-strip variant runs iff the module is not JSX/TSX. -/
def strip_plain_enabled (source_type : SourceType) : Bool :=
  !(is_jsx source_type)

/-- Gate of `Optional::new(strip::strip_with_jsx(..), is_jsx)`: the
JSX-aware type-strip variant runs iff the module is JSX/TSX. -/
def strip_jsx_enabled (source_type : SourceType) : Bool :=
  is_jsx source_type

/-- Gate of `Optional::new(react::refresh(options.is_dev, ..),
!specifier_is_remote)`: the fast-refresh pass is part of the chain iff the
module's resolved specifier is not remote. -/
def refresh_pass_included (specifier_is_remote : Bool) : Bool :=
  !specifier_is_remote

/-- Modelled from the spec: the external `react::refresh` transform (swc
crate) emits refresh instrumentation iff its first `enabled` argument is
true; `SWC::transform` passes `options.is_dev` for it.  Instrumentation
therefore appears in the output iff the pass is included in the chain and
`is_dev` is set. -/
def refresh_instrumented (is_dev specifier_is_remote : Bool) : Bool :=
  refresh_pass_included specifier_is_remote && is_dev

/-- Embedding of `SWC::apply_fold`, abstracting the external stages: the
composed fold `foldFn` maps the module, the external code generator `emit`
prints it, and (when `source_map` is requested) the external source-map
builder `emitMap` produces the map; the result is the emitted text and the
optional map. -/
def apply_fold (foldFn : List ModuleItem → List ModuleItem)
    (emit : List ModuleItem → String) (emitMap : List ModuleItem → String)
    (m : List ModuleItem) (source_map : Bool) : String × Option String :=
  let program := foldFn m
  let src := emit program
  if source_map then (src, some (emitMap program)) else (src, none)

/-- The spread flags of an argument list, in order. -/
def args_spreads : Args → List Bool
  | .nil => []
  | .cons sp _ rest => sp :: args_spreads rest

/-- A sample resolver for concrete instances: prefixes every specifier
with a CDN origin. -/
def sampleResolver : Resolver :=
  { resolveFn := fun s _ => "https://cdn/" ++ s, specifierIsRemote := false,
    deps := [], starExports := [], calls := [] }

/-- A resolver whose policy maps every specifier to itself. -/
def idResolver : Resolver :=
  { resolveFn := fun s _ => s, specifierIsRemote := false,
    deps := [], starExports := [], calls := [] }

/-- A sample named re-export `export { a } from "./m"` carrying a
non-dummy span and an import assertion. -/
def sampleNamedExport : NamedExport :=
  { span := 7, specifiers := [.named "a" none],
    src := some { value := "./m", span := 9, hasEscape := false, kind := 0 },
    typeOnly := false, asserts := some 3 }

/-- A sample module: a static import followed by a statement containing a
dynamic import call. -/
def sampleItems : List ModuleItem :=
  [.decl (.importD
    { span := 4, specifiers := [.defaultSpec "React"],
      src := { value := "pkg/react", span := 5, hasEscape := false, kind := 0 },
      typeOnly := false, asserts := none }),
   .stmt (.wrap (.call (.ident "import")
     (.cons false (.litStr (new_str "pkg/lazy")) .nil)))]

/-- A sample type-only import `import type T from "./t"` with a non-dummy
span, an escape-carrying source string and an assertion. -/
def sampleTypeOnlyImport : ImportDecl :=
  { span := 1, specifiers := [.named "T" none],
    src := { value := "./t", span := 2, hasEscape := true, kind := 1 },
    typeOnly := true, asserts := some 5 }

/-- A sample type-only named re-export `export type { T } from "./t"`. -/
def sampleTypeOnlyExport : NamedExport :=
  { span := 3, specifiers := [.named "T" none],
    src := some { value := "./t", span := 2, hasEscape := true, kind := 1 },
    typeOnly := true, asserts := none }

/-! ## Helper lemmas -/

theorem call_by_name_import (callee : Expr) :
    is_call_expr_by_name callee "import" = true ↔ callee = .ident "import" := by
  cases callee <;> simp [is_call_expr_by_name]

theorem fold_expr_import_lit (st : Resolver) (sp : Bool) (s : Str) (rest : Args) :
    fold_expr st (.call (.ident "import") (.cons sp (.litStr s) rest))
      = ({ st with
            deps := st.deps ++
              [{ specifier := st.resolveFn s.value true, isDynamic := true }],
            calls := st.calls ++ [(s.value, true)] },
         .call (.ident "import")
           (.cons false (.litStr (new_str (st.resolveFn s.value true))) .nil)) :=
  rfl

theorem fold_expr_import_nil (st : Resolver) :
    fold_expr st (.call (.ident "import") .nil)
      = (st, .call (.ident "import") .nil) :=
  rfl

theorem fold_expr_import_other (st : Resolver) (sp : Bool) (e : Expr) (rest : Args)
    (h : ∀ s, e ≠ Expr.litStr s) :
    fold_expr st (.call (.ident "import") (.cons sp e rest))
      = (st, .call (.ident "import") (.cons sp e rest)) := by
  cases e with
  | litStr s => exact absurd rfl (h s)
  | litOther => rfl
  | ident n => rfl
  | superE => rfl
  | call c a => rfl
  | wrap e1 => rfl
  | leaf => rfl

theorem fold_expr_other_callee (st : Resolver) (callee : Expr) (args : Args)
    (h : is_call_expr_by_name callee "import" = false) :
    fold_expr st (.call callee args)
      = ((fold_args (fold_expr st callee).1 args).1,
         .call (fold_expr st callee).2 (fold_args (fold_expr st callee).1 args).2) := by
  rw [fold_expr.eq_def]
  simp only [h, Bool.false_eq_true, if_false]

theorem fold_call_shape (st : Resolver) (c : Expr) (a : Args) :
    ∃ c' a', (fold_expr st (.call c a)).2 = Expr.call c' a' := by
  by_cases hg : is_call_expr_by_name c "import" = true
  · obtain rfl : c = .ident "import" := (call_by_name_import c).mp hg
    match a with
    | .nil => exact ⟨_, _, congrArg Prod.snd (fold_expr_import_nil st)⟩
    | .cons sp e1 rest =>
      cases e1 with
      | litStr s =>
        exact ⟨_, _, congrArg Prod.snd (fold_expr_import_lit st sp s rest)⟩
      | litOther => exact ⟨_, _, rfl⟩
      | ident n => exact ⟨_, _, rfl⟩
      | superE => exact ⟨_, _, rfl⟩
      | call c2 a2 => exact ⟨_, _, rfl⟩
      | wrap e2 => exact ⟨_, _, rfl⟩
      | leaf => exact ⟨_, _, rfl⟩
  · refine ⟨_, _, congrArg Prod.snd (fold_expr_other_callee st c a ?_)⟩
    exact Bool.not_eq_true _ ▸ eq_false_of_ne_true hg

theorem is_call_expr_by_name_fold (st : Resolver) (c : Expr) (name : String) :
    is_call_expr_by_name (fold_expr st c).2 name = is_call_expr_by_name c name := by
  cases c with
  | call c1 a1 =>
    obtain ⟨c', a', hshape⟩ := fold_call_shape st c1 a1
    rw [hshape]
    rfl
  | litStr s => rfl
  | litOther => rfl
  | ident n => rfl
  | superE => rfl
  | wrap e1 => rfl
  | leaf => rfl

theorem args_spreads_fold : ∀ (st : Resolver) (args : Args),
    args_spreads (fold_args st args).2 = args_spreads args
  | _, .nil => rfl
  | st, .cons sp e rest => by
    simp only [fold_args, args_spreads]
    exact congrArg (sp :: ·) (args_spreads_fold _ rest)

theorem new_str_value (s : String) : (new_str s).value = s := rfl

theorem resolve_snd (st : Resolver) (s : String) (d : Bool) :
    (st.resolve s d).2 = st.resolveFn s d := rfl

mutual
theorem fold_expr_resolveFn : ∀ (st : Resolver) (e : Expr),
    ((fold_expr st e).1).resolveFn = st.resolveFn
  | st, .call callee args => by
    by_cases hg : is_call_expr_by_name callee "import" = true
    · obtain rfl := (call_by_name_import callee).mp hg
      match args with
      | .nil => rfl
      | .cons sp e1 rest =>
        cases e1 with
        | litStr s => rw [fold_expr_import_lit]
        | litOther => rfl
        | ident n => rfl
        | superE => rfl
        | call c2 a2 => rfl
        | wrap e2 => rfl
        | leaf => rfl
    · have hg' : is_call_expr_by_name callee "import" = false := by simpa using hg
      rw [fold_expr_other_callee st callee args hg']
      rw [fold_args_resolveFn, fold_expr_resolveFn]
  | st, .wrap e1 => by
    simp only [fold_expr]
    exact fold_expr_resolveFn st e1
  | st, .litStr s => rfl
  | st, .litOther => rfl
  | st, .ident n => rfl
  | st, .superE => rfl
  | st, .leaf => rfl

theorem fold_args_resolveFn : ∀ (st : Resolver) (args : Args),
    ((fold_args st args).1).resolveFn = st.resolveFn
  | st, .nil => rfl
  | st, .cons sp e rest => by
    simp only [fold_args]
    rw [fold_args_resolveFn, fold_expr_resolveFn]
end

mutual
theorem fold_expr_idem : ∀ (e : Expr) (stA stB : Resolver),
    (∀ s d, stB.resolveFn (stA.resolveFn s d) d = stA.resolveFn s d) →
    (fold_expr stB (fold_expr stA e).2).2 = (fold_expr stA e).2
  | .call callee args, stA, stB, h => by
    by_cases hg : is_call_expr_by_name callee "import" = true
    · obtain rfl := (call_by_name_import callee).mp hg
      match args with
      | .nil => simp [fold_expr_import_nil]
      | .cons sp e1 rest =>
        cases e1 with
        | litStr s =>
          simp only [fold_expr_import_lit, new_str_value, h]
        | litOther => rfl
        | ident n => rfl
        | superE => rfl
        | call c2 a2 => rfl
        | wrap e2 => rfl
        | leaf => rfl
    · have hg' : is_call_expr_by_name callee "import" = false := by simpa using hg
      rw [fold_expr_other_callee stA callee args hg']
      have hg2 : is_call_expr_by_name (fold_expr stA callee).2 "import" = false := by
        rw [is_call_expr_by_name_fold]
        exact hg'
      rw [fold_expr_other_callee stB _ _ hg2]
      have h1 : (fold_expr stB (fold_expr stA callee).2).2 = (fold_expr stA callee).2 :=
        fold_expr_idem callee stA stB h
      have h2 : (fold_args (fold_expr stB (fold_expr stA callee).2).1
            (fold_args (fold_expr stA callee).1 args).2).2
          = (fold_args (fold_expr stA callee).1 args).2 := by
        refine fold_args_idem args ((fold_expr stA callee).1)
          ((fold_expr stB (fold_expr stA callee).2).1) ?_
        intro s d
        rw [fold_expr_resolveFn stB, fold_expr_resolveFn stA]
        exact h s d
      simp only [h1, h2]
  | .wrap e1, stA, stB, h => by
    simp only [fold_expr]
    rw [fold_expr_idem e1 stA stB h]
  | .litStr s, _, _, _ => rfl
  | .litOther, _, _, _ => rfl
  | .ident n, _, _, _ => rfl
  | .superE, _, _, _ => rfl
  | .leaf, _, _, _ => rfl

theorem fold_args_idem : ∀ (args : Args) (stA stB : Resolver),
    (∀ s d, stB.resolveFn (stA.resolveFn s d) d = stA.resolveFn s d) →
    (fold_args stB (fold_args stA args).2).2 = (fold_args stA args).2
  | .nil, _, _, _ => rfl
  | .cons sp e rest, stA, stB, h => by
    simp only [fold_args]
    have h1 : (fold_expr stB (fold_expr stA e).2).2 = (fold_expr stA e).2 :=
      fold_expr_idem e stA stB h
    have h2 : (fold_args (fold_expr stB (fold_expr stA e).2).1
          (fold_args (fold_expr stA e).1 rest).2).2
        = (fold_args (fold_expr stA e).1 rest).2 := by
      refine fold_args_idem rest ((fold_expr stA e).1)
        ((fold_expr stB (fold_expr stA e).2).1) ?_
      intro s d
      rw [fold_expr_resolveFn stB, fold_expr_resolveFn stA]
      exact h s d
    simp only [h1, h2]
end

theorem fold_module_item_resolveFn (st : Resolver) (item : ModuleItem) :
    ((fold_module_item st item).1).resolveFn = st.resolveFn := by
  cases item with
  | decl d =>
    cases d with
    | importD i =>
      simp only [fold_module_item]
      split
      · rfl
      · rfl
    | exportNamed e =>
      simp only [fold_module_item]
      split
      · split
        · rfl
        · rfl
      · rfl
    | exportAll ea => rfl
    | otherDecl ex =>
      simp only [fold_module_item]
      exact fold_expr_resolveFn st ex
  | stmt ex =>
    simp only [fold_module_item]
    exact fold_expr_resolveFn st ex

theorem fold_module_items_resolveFn : ∀ (st : Resolver) (items : List ModuleItem),
    ((fold_module_items st items).1).resolveFn = st.resolveFn
  | _, [] => rfl
  | st, item :: rest => by
    simp only [fold_module_items]
    rw [fold_module_items_resolveFn, fold_module_item_resolveFn]

theorem fold_module_item_idem (item : ModuleItem) (stA stB : Resolver)
    (h : ∀ s d, stB.resolveFn (stA.resolveFn s d) d = stA.resolveFn s d) :
    (fold_module_item stB (fold_module_item stA item).2).2
      = (fold_module_item stA item).2 := by
  cases item with
  | decl d =>
    cases d with
    | importD i =>
      by_cases htype : i.typeOnly = true
      · simp [fold_module_item, htype]
      · have hfalse : i.typeOnly = false := by simpa using htype
        simp [fold_module_item, hfalse, new_str_value, resolve_snd, h]
    | exportNamed e =>
      cases hsrc : e.src with
      | none => simp [fold_module_item, hsrc]
      | some src =>
        by_cases htype : e.typeOnly = true
        · simp [fold_module_item, hsrc, htype]
        · have hfalse : e.typeOnly = false := by simpa using htype
          simp [fold_module_item, hsrc, hfalse, new_str_value, resolve_snd, h]
    | exportAll ea => simp [fold_module_item, new_str_value, resolve_snd, h]
    | otherDecl ex =>
      simp only [fold_module_item]
      rw [fold_expr_idem ex stA stB h]
  | stmt ex =>
    simp only [fold_module_item]
    rw [fold_expr_idem ex stA stB h]

theorem fold_module_items_idem : ∀ (items : List ModuleItem) (stA stB : Resolver),
    (∀ s d, stB.resolveFn (stA.resolveFn s d) d = stA.resolveFn s d) →
    (fold_module_items stB (fold_module_items stA items).2).2
      = (fold_module_items stA items).2
  | [], _, _, _ => rfl
  | item :: rest, stA, stB, h => by
    simp only [fold_module_items]
    have h1 : (fold_module_item stB (fold_module_item stA item).2).2
        = (fold_module_item stA item).2 := fold_module_item_idem item stA stB h
    have h2 : (fold_module_items (fold_module_item stB (fold_module_item stA item).2).1
          (fold_module_items (fold_module_item stA item).1 rest).2).2
        = (fold_module_items (fold_module_item stA item).1 rest).2 := by
      refine fold_module_items_idem rest ((fold_module_item stA item).1)
        ((fold_module_item stB (fold_module_item stA item).2).1) ?_
      intro s d
      rw [fold_module_item_resolveFn stB, fold_module_item_resolveFn stA]
      exact h s d
    simp only [h1, h2]

/-! ## Claim theorems -/

/-- C1: after code generation, a dependency descriptor is kept in the
final list iff its resolved specifier is in the Star-Export Set or the
emitted code contains the double-quoted specifier as an exact substring;
all other descriptors are dropped, and an empty ledger yields an empty
list. -/
theorem prune_deps_spec :
    (∀ (star : List String) (code : String)
        (deps : List DependencyDescriptor) (d : DependencyDescriptor),
      d ∈ prune_deps star code deps
        ↔ d ∈ deps ∧ (star.contains d.specifier = true
            ∨ str_contains code (to_str_lit d.specifier) = true))
  ∧ ∀ (star : List String) (code : String), prune_deps star code [] = [] := by
  constructor
  · intro star code deps d
    induction deps with
    | nil => simp [prune_deps]
    | cons hd tl ih =>
      simp only [prune_deps]
      split
      next h =>
        simp only [List.mem_cons, ih]
        constructor
        · rintro (rfl | ⟨hmem, hcond⟩)
          · exact ⟨Or.inl rfl, by simpa [Bool.or_eq_true] using h⟩
          · exact ⟨Or.inr hmem, hcond⟩
        · rintro ⟨rfl | hmem, hcond⟩
          · exact Or.inl rfl
          · exact Or.inr ⟨hmem, hcond⟩
      next h =>
        simp only [ih, List.mem_cons]
        constructor
        · rintro ⟨hmem, hcond⟩
          exact ⟨Or.inr hmem, hcond⟩
        · rintro ⟨rfl | hmem, hcond⟩
          · exact absurd (by simpa [Bool.or_eq_true] using hcond) h
          · exact ⟨hmem, hcond⟩
  · intro star code
    rfl

/-- C4 (amended): exactly one of the two type-stripping variants runs —
the JSX-aware variant iff the source type is JSX or TSX and the plain
variant in every other case, `Unknown` included; for an unknown module
kind only the parse syntax defaults to the TSX-capable TypeScript
configuration, while the strip selection uses the plain variant. -/
theorem strip_selection :
    (∀ t, strip_jsx_enabled t = true ↔ (t = SourceType.JSX ∨ t = SourceType.TSX))
  ∧ (∀ t, strip_plain_enabled t = !(strip_jsx_enabled t))
  ∧ get_syntax SourceType.Unknown = JsSyntax.typescript (get_ts_config true) := by
  refine ⟨?_, ?_, rfl⟩
  · intro t
    cases t <;> simp [strip_jsx_enabled, is_jsx]
  · intro t
    cases t <;> rfl

/-- C4 counterexample: for `SourceType::Unknown` the JSX-aware strip
variant is not selected — the plain variant is — so an unknown module
kind does not default to the JSX/TSX-capable strip path as the claim
states. -/
theorem strip_unknown_counterexample :
    strip_jsx_enabled SourceType.Unknown = false
      ∧ strip_plain_enabled SourceType.Unknown = true := by
  decide

/-- C5: fast-refresh instrumentation appears in the output iff
`developmentMode` is set and the module's resolved specifier is not
remote; in particular dev+remote yields none and dev+local yields it. -/
theorem refresh_gating :
    (∀ is_dev remote,
      refresh_instrumented is_dev remote = true ↔ (is_dev = true ∧ remote = false))
  ∧ refresh_instrumented true true = false
  ∧ refresh_instrumented true false = true := by
  refine ⟨?_, rfl, rfl⟩
  intro is_dev remote
  cases is_dev <;> cases remote <;> simp [refresh_instrumented, refresh_pass_included]

/-- C8: a successful run produces the emitted source text together with
an optional source map, present iff source maps were requested. -/
theorem apply_fold_output (foldFn : List ModuleItem → List ModuleItem)
    (emit emitMap : List ModuleItem → String) (m : List ModuleItem)
    (source_map : Bool) :
    apply_fold foldFn emit emitMap m source_map
        = (emit (foldFn m),
           if source_map then some (emitMap (foldFn m)) else none)
      ∧ (apply_fold foldFn emit emitMap m source_map).2.isSome = source_map := by
  cases source_map <;> simp [apply_fold]

/-- C2 (amended): a call whose callee is the bare `import` identifier and
whose first argument's expression is a plain string literal `s` has its
argument list replaced by the single string literal `resolve(s, true)`
(the first argument's spread flag is ignored and discarded, and further
arguments are dropped); an `import` call with no argument, or whose first
argument's expression is not a string literal, is left entirely
unchanged; a call with any other callee only has its children folded — no
argument-list replacement happens and argument count and spread flags are
preserved. -/
theorem fold_call_expr_spec :
    (∀ (st : Resolver) (sp : Bool) (s : Str) (rest : Args),
      fold_call_expr st (.ident "import") (.cons sp (.litStr s) rest)
        = ({ st with
              deps := st.deps ++
                [{ specifier := st.resolveFn s.value true, isDynamic := true }],
              calls := st.calls ++ [(s.value, true)] },
           .call (.ident "import")
             (.cons false (.litStr (new_str (st.resolveFn s.value true))) .nil)))
  ∧ (∀ (st : Resolver) (callee : Expr) (sp : Bool) (e : Expr) (rest : Args),
      is_call_expr_by_name callee "import" = true →
      (∀ s, e ≠ Expr.litStr s) →
      fold_call_expr st callee (.cons sp e rest)
        = (st, .call callee (.cons sp e rest)))
  ∧ (∀ (st : Resolver) (callee : Expr),
      is_call_expr_by_name callee "import" = true →
      fold_call_expr st callee .nil = (st, .call callee .nil))
  ∧ (∀ (st : Resolver) (callee : Expr) (args : Args),
      is_call_expr_by_name callee "import" = false →
      fold_call_expr st callee args
          = ((fold_args (fold_expr st callee).1 args).1,
             .call (fold_expr st callee).2 (fold_args (fold_expr st callee).1 args).2)
        ∧ args_spreads (fold_args (fold_expr st callee).1 args).2 = args_spreads args) := by
  refine ⟨?_, ?_, ?_, ?_⟩
  · intro st sp s rest
    exact fold_expr_import_lit st sp s rest
  · intro st callee sp e rest hg hlit
    obtain rfl := (call_by_name_import callee).mp hg
    exact fold_expr_import_other st sp e rest hlit
  · intro st callee hg
    obtain rfl := (call_by_name_import callee).mp hg
    exact fold_expr_import_nil st
  · intro st callee args hg
    exact ⟨fold_expr_other_callee st callee args hg, args_spreads_fold _ args⟩

/-- C2 counterexample: `import(..."./a")` — an `import` call whose first
argument is a spread of a string literal, hence not a plain string-literal
argument — is not left unchanged: the fold rewrites it, discarding the
spread flag. -/
theorem dynamic_import_spread_counterexample :
    (fold_call_expr sampleResolver (.ident "import")
        (.cons true (.litStr (new_str "./a")) .nil)).2
      ≠ .call (.ident "import") (.cons true (.litStr (new_str "./a")) .nil) := by
  decide

/-- C2 witness: a concrete ineligible `import(u)` call (identifier
argument) is returned unchanged. -/
theorem fold_call_expr_spec_witness :
    fold_call_expr sampleResolver (.ident "import")
        (.cons false (.ident "u") .nil)
      = (sampleResolver, .call (.ident "import") (.cons false (.ident "u") .nil)) :=
  fold_call_expr_spec.2.1 sampleResolver (.ident "import") false (.ident "u") .nil
    (by decide) (fun s h => by cases h)

/-- C3: a type-only static import is passed through bit-for-bit with the
resolver state untouched (no resolve call in the trace, no ledger entry),
and a type-only named re-export keeps its specifier text byte-identical
with the resolver state untouched. -/
theorem type_only_untouched :
    (∀ (st : Resolver) (d : ImportDecl), d.typeOnly = true →
      fold_module_item st (.decl (.importD d)) = (st, .decl (.importD d)))
  ∧ (∀ (st : Resolver) (e : NamedExport) (src : Str),
      e.typeOnly = true → e.src = some src →
      fold_module_item st (.decl (.exportNamed e))
        = (st, .decl (.exportNamed
            { span := dummySpan, specifiers := e.specifiers,
              src := some src, typeOnly := true, asserts := none }))) := by
  constructor
  · intro st d h
    simp only [fold_module_item, h, if_true]
  · intro st e src h1 h2
    simp only [fold_module_item, h2, h1, if_true]

/-- C3 witness: the sample type-only import and type-only re-export are
both passed through with the resolver state unchanged. -/
theorem type_only_untouched_witness :
    fold_module_item sampleResolver (.decl (.importD sampleTypeOnlyImport))
        = (sampleResolver, .decl (.importD sampleTypeOnlyImport))
      ∧ fold_module_item sampleResolver (.decl (.exportNamed sampleTypeOnlyExport))
        = (sampleResolver, .decl (.exportNamed
            { span := dummySpan, specifiers := sampleTypeOnlyExport.specifiers,
              src := some { value := "./t", span := 2, hasEscape := true, kind := 1 },
              typeOnly := true, asserts := none })) :=
  ⟨type_only_untouched.1 sampleResolver sampleTypeOnlyImport rfl,
   type_only_untouched.2 sampleResolver sampleTypeOnlyExport _ rfl rfl⟩

/-- C6 (amended): a non-type-only static import has exactly its source
string replaced by `resolve(src, false)` — bindings, span and assertions
are untouched; a non-type-only named re-export with a source keeps its
specifier list and type-only flag and has its source replaced by
`resolve(src, false)`, but its span is reset to the dummy span and its
assertions are dropped. -/
theorem rewrite_frame :
    (∀ (st : Resolver) (d : ImportDecl), d.typeOnly = false →
      fold_module_item st (.decl (.importD d))
        = ({ st with
              deps := st.deps ++
                [{ specifier := st.resolveFn d.src.value false, isDynamic := false }],
              calls := st.calls ++ [(d.src.value, false)] },
           .decl (.importD { d with src := new_str (st.resolveFn d.src.value false) })))
  ∧ (∀ (st : Resolver) (e : NamedExport) (src : Str),
      e.typeOnly = false → e.src = some src →
      fold_module_item st (.decl (.exportNamed e))
        = ({ st with
              deps := st.deps ++
                [{ specifier := st.resolveFn src.value false, isDynamic := false }],
              calls := st.calls ++ [(src.value, false)] },
           .decl (.exportNamed
             { span := dummySpan, specifiers := e.specifiers,
               src := some (new_str (st.resolveFn src.value false)),
               typeOnly := false, asserts := none }))) := by
  constructor
  · intro st d h
    simp only [fold_module_item, h, Bool.false_eq_true, if_false]
    rfl
  · intro st e src h1 h2
    simp only [fold_module_item, h2, h1, Bool.false_eq_true, if_false]
    rfl

/-- C6 counterexample: for a named re-export carrying a non-dummy span and
an import assertion, the rewritten node is not the original node with only
its source replaced — the span is reset and the assertion dropped. -/
theorem export_named_frame_counterexample :
    (fold_module_item sampleResolver (.decl (.exportNamed sampleNamedExport))).2
      ≠ .decl (.exportNamed
          { sampleNamedExport with src := some (new_str "https://cdn/./m") }) := by
  decide

/-- C6 witness: the sample named re-export, rewritten concretely. -/
theorem rewrite_frame_witness :
    fold_module_item sampleResolver (.decl (.exportNamed sampleNamedExport))
      = ({ sampleResolver with
            deps := sampleResolver.deps ++
              [{ specifier := sampleResolver.resolveFn "./m" false, isDynamic := false }],
            calls := sampleResolver.calls ++ [("./m", false)] },
         .decl (.exportNamed
           { span := dummySpan, specifiers := sampleNamedExport.specifiers,
             src := some (new_str (sampleResolver.resolveFn "./m" false)),
             typeOnly := false, asserts := none })) :=
  rewrite_frame.2 sampleResolver sampleNamedExport _ rfl rfl

/-- C10: an `import`-callee call that is not eligible for rewriting (no
arguments, or a first argument whose expression is not a string literal)
is returned as-is without folding its children: nested occurrences inside
its arguments stay un-rewritten and the resolver state — ledger and
resolve-call trace — is unchanged. -/
theorem ineligible_import_call_untouched :
    (∀ (st : Resolver) (callee : Expr) (sp : Bool) (e : Expr) (rest : Args),
      is_call_expr_by_name callee "import" = true →
      (∀ s, e ≠ Expr.litStr s) →
      fold_call_expr st callee (.cons sp e rest)
        = (st, .call callee (.cons sp e rest)))
  ∧ (∀ (st : Resolver) (callee : Expr),
      is_call_expr_by_name callee "import" = true →
      fold_call_expr st callee .nil = (st, .call callee .nil)) := by
  constructor
  · intro st callee sp e rest hg hlit
    obtain rfl := (call_by_name_import callee).mp hg
    exact fold_expr_import_other st sp e rest hlit
  · intro st callee hg
    obtain rfl := (call_by_name_import callee).mp hg
    exact fold_expr_import_nil st

/-- C10 witness: `import(u, import("x"))` — ineligible because its first
argument is an identifier — is returned unchanged, leaving the nested
eligible `import("x")` in its second argument un-rewritten and the
resolver state untouched. -/
theorem ineligible_import_call_untouched_witness :
    fold_call_expr sampleResolver (.ident "import")
        (.cons false (.ident "u")
          (.cons false (.call (.ident "import")
            (.cons false (.litStr (new_str "x")) .nil)) .nil))
      = (sampleResolver,
         .call (.ident "import")
          (.cons false (.ident "u")
            (.cons false (.call (.ident "import")
              (.cons false (.litStr (new_str "x")) .nil)) .nil))) :=
  ineligible_import_call_untouched.1 sampleResolver (.ident "import") false
    (.ident "u") _ (by decide) (fun s h => by cases h)

/-- C9: re-running the Specifier Rewriter on a tree it already produced,
with a Resolution Authority that resolves every already-resolved URL (any
output of the first authority) to itself, yields a byte-identical tree. -/
theorem resolve_fold_idempotent (stA stB : Resolver) (items : List ModuleItem)
    (h : ∀ s d, stB.resolveFn (stA.resolveFn s d) d = stA.resolveFn s d) :
    (fold_module_items stB (fold_module_items stA items).2).2
      = (fold_module_items stA items).2 :=
  fold_module_items_idem items stA stB h

/-- C9 witness: rewriting the sample module with the CDN-prefixing
resolver and re-running the fold with the identity resolver reproduces
the same tree. -/
theorem resolve_fold_idempotent_witness :
    (∀ s d, idResolver.resolveFn (sampleResolver.resolveFn s d) d
        = sampleResolver.resolveFn s d)
      ∧ (fold_module_items idResolver
            (fold_module_items sampleResolver sampleItems).2).2
        = (fold_module_items sampleResolver sampleItems).2 :=
  ⟨fun _ _ => rfl,
   resolve_fold_idempotent sampleResolver idResolver sampleItems (fun _ _ => rfl)⟩

end EsmCompiler
